import Mathlib

/-!
Verification of the ob-scraper gocardless provider core: calendar window
arithmetic, transaction bucketing and ordering, status deserialization, the
consent-callback handler, the per-account ingestion driver, and the atomic
file writer. Each definition embeds the corresponding Rust item; the claim
theorems are at the end of the file.
-/

namespace ObScraper

/-- Gregorian calendar date: models chrono `NaiveDate` as year, month (1-12)
and day of month (1-31). -/
structure Date where
  year : Int
  month : Nat
  day : Nat
deriving DecidableEq, Repr

/-- Proleptic Gregorian leap-year rule, as used by chrono. For the CE years
this system handles, `%` agrees with Rust's remainder. -/
def isLeapYear (y : Int) : Bool :=
  y % 4 == 0 && (y % 100 != 0 || y % 400 == 0)

/-- Number of days in a month of a given year. -/
def daysInMonth (y : Int) (m : Nat) : Nat :=
  if m = 2 then (if isLeapYear y then 29 else 28)
  else if m = 4 ∨ m = 6 ∨ m = 9 ∨ m = 11 then 30
  else 31

/-- A structurally valid calendar date. -/
def Date.Valid (d : Date) : Prop :=
  1 ≤ d.month ∧ d.month ≤ 12 ∧ 1 ≤ d.day ∧ d.day ≤ daysInMonth d.year d.month

instance (d : Date) : Decidable d.Valid := by
  unfold Date.Valid; infer_instance

/-- The previous calendar day. -/
def Date.pred (d : Date) : Date :=
  if 1 < d.day then ⟨d.year, d.month, d.day - 1⟩
  else if 1 < d.month then ⟨d.year, d.month - 1, daysInMonth d.year (d.month - 1)⟩
  else ⟨d.year - 1, 12, 31⟩

/-- The next calendar day. -/
def Date.succ (d : Date) : Date :=
  if d.day < daysInMonth d.year d.month then ⟨d.year, d.month, d.day + 1⟩
  else if d.month < 12 then ⟨d.year, d.month + 1, 1⟩
  else ⟨d.year + 1, 1, 1⟩

/-- `date - Days::new(n)` of chrono: step back `n` calendar days. -/
def Date.subDays (d : Date) : Nat → Date
  | 0 => d
  | n + 1 => (Date.pred d).subDays n

/-- `date + Days::new(n)` of chrono: step forward `n` calendar days. -/
def Date.addDays (d : Date) : Nat → Date
  | 0 => d
  | n + 1 => (Date.succ d).addDays n

/-- `date + Months::new(1)` of chrono: advance one month, clamping the day of
month to the length of the target month. -/
def Date.addOneMonth (d : Date) : Date :=
  if d.month < 12 then
    ⟨d.year, d.month + 1, min d.day (daysInMonth d.year (d.month + 1))⟩
  else
    ⟨d.year + 1, 1, min d.day (daysInMonth (d.year + 1) 1)⟩

/-- chrono `Datelike::day0`: the zero-based day of month. -/
def Date.day0 (d : Date) : Nat := d.day - 1

/-- The first day of the month following `d` (used only to state the claims;
the code never constructs it directly). -/
def Date.firstOfNextMonth (d : Date) : Date :=
  if d.month < 12 then ⟨d.year, d.month + 1, 1⟩ else ⟨d.year + 1, 1, 1⟩

/-- `ProviderConfig::history_days` (config.rs 80-82): the configured window
length in days, defaulting to 90 when unset. -/
def historyDays (configured : Option Nat) : Nat := configured.getD 90

/-- The raw window start of `Cmd::run` (sync.rs 93):
`end_date - history_days + Days::new(1)`. -/
def rawStartDate (endDate : Date) (configuredHistoryDays : Option Nat) : Date :=
  (endDate.subDays (historyDays configuredHistoryDays)).addDays 1

/-- The window start of `Cmd::run` (sync.rs 93-97): the raw start, rounded
forward to a month boundary when it does not already fall on day 1, by adding
one (clamped) month and then subtracting the zero-based day of month. -/
def computeStartDate (endDate : Date) (configuredHistoryDays : Option Nat) : Date :=
  let start := rawStartDate endDate configuredHistoryDays
  if 1 < start.day then
    let start1 := start.addOneMonth
    start1.subDays start1.day0
  else start

/-- Requisition status (connect.rs 54-80): a closed enumeration of the eight
documented GoCardless states, with no catch-all variant. -/
inductive RequisitionStatus where
  | Created
  | GivingConsent
  | UndergoingAuthentication
  | Rejected
  | SelectingAccounts
  | GrantingAccess
  | Linked
  | Expired
deriving DecidableEq, Repr

/-- serde deserialization of `RequisitionStatus` from its wire code: the enum
is closed, so an unknown code is a deserialization error, modeled as `none`. -/
def RequisitionStatus.ofString (s : String) : Option RequisitionStatus :=
  if s = "CR" then some .Created
  else if s = "GC" then some .GivingConsent
  else if s = "UA" then some .UndergoingAuthentication
  else if s = "RJ" then some .Rejected
  else if s = "SA" then some .SelectingAccounts
  else if s = "GA" then some .GrantingAccess
  else if s = "LN" then some .Linked
  else if s = "EX" then some .Expired
  else none

/-- Account status (accounts.rs 6-18): four known variants plus an untagged
fallback carrying the raw string. -/
inductive AccountStatus where
  | Ready
  | Expired
  | Error
  | Suspended
  | Other (raw : String)
deriving DecidableEq, Repr

/-- serde deserialization of `AccountStatus`: the tagged variants are tried on
their wire codes first, and the untagged `Other` fallback accepts any other
string, so deserialization is total. -/
def AccountStatus.ofString (s : String) : AccountStatus :=
  if s = "READY" then .Ready
  else if s = "EXPIRED" then .Expired
  else if s = "ERROR" then .Error
  else if s = "SUSPENDED" then .Suspended
  else .Other s

/-- Opaque requisition/account identifier; the code only compares ids for
equality, so a `Nat` stands in for `uuid::Uuid`. -/
abbrev Uuid := Nat

/-- Requisition record (connect.rs 44-52), with its flattened extra payload
elided (the handler never reads it). -/
structure Requisition where
  id : Uuid
  link : String
  status : RequisitionStatus
  accounts : List Uuid
deriving DecidableEq, Repr

/-- The three response shapes `handle_redirect` can produce. -/
inductive Response where
  | notFound
  | consentPage (link : String) (status : RequisitionStatus)
  | plainOk
deriving DecidableEq, Repr

/-- HTTP status code of each response shape: 404 for the unexpected-id reply,
200 for the rendered consent page and for the plain "Ok" body. -/
def Response.statusCode : Response → Nat
  | .notFound => 404
  | .consentPage _ _ => 200
  | .plainOk => 200

/-- `handle_redirect` (connect.rs 211-249): given the expected requisition id,
the id supplied in the callback query, and the requisition as re-fetched from
the provider, returns the response together with whether cancellation of the
handshake was triggered. -/
def handleRedirect (expectedRequisitionId : Uuid) (queryId : Uuid)
    (fetched : Requisition) : Response × Bool :=
  if queryId ≠ expectedRequisitionId then
    (.notFound, false)
  else
    match fetched.status with
    | .Created | .GivingConsent | .UndergoingAuthentication
    | .SelectingAccounts | .GrantingAccess =>
        (.consentPage fetched.link fetched.status, false)
    | .Linked => (.plainOk, true)
    | _ => (.plainOk, false)

/-- UTC instant at second resolution, modeling chrono `DateTime<Utc>`
(sub-second precision is elided; no claim depends on it). -/
structure DateTime where
  date : Date
  hour : Nat
  minute : Nat
  second : Nat
deriving DecidableEq, Repr

/-- Chronological comparison of dates (lexicographic on year, month, day). -/
def compareDate (a b : Date) : Ordering :=
  (compare a.year b.year).then ((compare a.month b.month).then (compare a.day b.day))

/-- Chronological comparison of UTC instants, modeling `Ord` on chrono
`DateTime<Utc>`. -/
def compareDateTime (a b : DateTime) : Ordering :=
  (compareDate a.date b.date).then
    ((compare a.hour b.hour).then ((compare a.minute b.minute).then (compare a.second b.second)))

/-- Zeller's congruence: day of week of a Gregorian date, 0 = Saturday,
1 = Sunday, …, 6 = Friday. -/
def zellerDayOfWeek (y : Int) (m d : Nat) : Int :=
  let mm : Int := if m ≤ 2 then (m : Int) + 12 else (m : Int)
  let yy : Int := if m ≤ 2 then y - 1 else y
  let K := yy % 100
  let J := yy / 100
  ((d : Int) + 13 * (mm + 1) / 5 + K + K / 4 + J / 4 + 5 * J) % 7

/-- Day of month of the last Sunday of a month. -/
def lastSunday (y : Int) (m : Nat) : Nat :=
  let L := daysInMonth y m
  let w := (zellerDayOfWeek y m L).toNat
  L - (w + 6) % 7

/-- Local midnight of `d` in Europe/London falls in British Summer Time:
after the last Sunday of March and at or before the last Sunday of October
(the clocks change at 01:00 UTC, so midnight of each transition Sunday still
has the pre-transition offset for March and the summer offset for October). -/
def InBst (d : Date) : Prop :=
  (3 < d.month ∨ (d.month = 3 ∧ lastSunday d.year 3 < d.day)) ∧
  (d.month < 10 ∨ (d.month = 10 ∧ d.day ≤ lastSunday d.year 10))

instance (d : Date) : Decidable (InBst d) := by
  unfold InBst; infer_instance

/-- Interpretation of a `NaiveDate` at local midnight in the Europe/London
reference timezone, converted to UTC (transactions.rs 80-100 via the tzfile
zone data, which is external to the repository; modeled here with the
modern UK daylight-saving rules, in force for every date this system
processes). During BST local midnight is 23:00 UTC of the previous day. -/
def londonMidnightUtc (d : Date) : DateTime :=
  if InBst d then ⟨d.pred, 23, 0, 0⟩ else ⟨d, 0, 0, 0⟩

/-- JSON values, modeling `serde_json::Value`. Object entries are kept as an
ordered association list (serde_json stores objects sorted by key; the
round-trip hypotheses require that canonical form). Numbers are modeled as
integers; every claim treats numeric payloads opaquely. -/
inductive Json where
  | null
  | bool (b : Bool)
  | num (n : Int)
  | str (s : String)
  | arr (elems : List Json)
  | obj (entries : List (String × Json))

/-- Transaction record (transactions.rs 33-69): six optional typed fields
plus the flattened bag of unknown fields. -/
structure Transaction where
  bookingDate : Option Date
  bookingDateTime : Option DateTime
  valueDate : Option Date
  valueDateTime : Option DateTime
  transactionId : Option String
  internalTransactionId : Option String
  other : List (String × Json)

/-- `Transaction::date_best_effort` (transactions.rs 72-76): booking date,
else the date portion of the booking date-time, else the value date. The
value date-time is not consulted. -/
def Transaction.dateBestEffort (t : Transaction) : Option Date :=
  (t.bookingDate.or (t.bookingDateTime.map (fun dt => dt.date))).or t.valueDate

/-- `Transaction::timestamp_best_effort` (transactions.rs 78-101): booking
date-time, else booking date at London midnight, else value date-time, else
value date at London midnight. -/
def Transaction.timestampBestEffort (t : Transaction) : Option DateTime :=
  ((t.bookingDateTime.or (t.bookingDate.map londonMidnightUtc)).or
    t.valueDateTime).or (t.valueDate.map londonMidnightUtc)

/-- A transaction tagged with the provider-side list it came from
(sync.rs 33-40). -/
inductive TransactionWithStatus where
  | pending (t : Transaction)
  | booked (t : Transaction)

/-- `TransactionWithStatus::timestamp_best_effort` (sync.rs 43-48). -/
def TransactionWithStatus.timestampBestEffort : TransactionWithStatus → Option DateTime
  | .pending t => t.timestampBestEffort
  | .booked t => t.timestampBestEffort

/-- `TransactionWithStatus::transaction_id` (sync.rs 50-55). -/
def TransactionWithStatus.transactionId : TransactionWithStatus → Option String
  | .pending t => t.transactionId
  | .booked t => t.transactionId

/-- `TransactionWithStatus::internal_transaction_id` (sync.rs 56-65). -/
def TransactionWithStatus.internalTransactionId : TransactionWithStatus → Option String
  | .pending t => t.internalTransactionId
  | .booked t => t.internalTransactionId

/-- Comparison of code points; on strings this coincides with Rust's byte-wise
`str` ordering, since UTF-8 preserves code-point order. -/
def compareChar (a b : Char) : Ordering := compare a.toNat b.toNat

/-- Lexicographic comparison of character lists. -/
def compareChars : List Char → List Char → Ordering
  | [], [] => .eq
  | [], _ :: _ => .lt
  | _ :: _, [] => .gt
  | a :: as, b :: bs => (compareChar a b).then (compareChars as bs)

/-- Rust `str` ordering. -/
def compareStr (a b : String) : Ordering := compareChars a.data b.data

/-- Rust `Option<&str>` ordering: `None` sorts before any `Some`. -/
def compareOptionStr : Option String → Option String → Ordering
  | none, none => .eq
  | none, some _ => .lt
  | some _, none => .gt
  | some a, some b => compareStr a b

/-- The in-bucket comparator of `Cmd::list_account` (sync.rs 161-175):
compare best-effort timestamps when both are present (otherwise treat the
pair as equal), then break ties by transaction id and then by internal
transaction id. -/
def transactionCmp (a b : TransactionWithStatus) : Ordering :=
  ((match a.timestampBestEffort, b.timestampBestEffort with
    | some left, some right => compareDateTime left right
    | _, _ => Ordering.eq).then
      (compareOptionStr a.transactionId b.transactionId)).then
    (compareOptionStr a.internalTransactionId b.internalTransactionId)

/-- Insert into a sorted list, after every element strictly smaller under the
comparator and before the first element not smaller: the stable placement. -/
def insertCmp (cmp : α → α → Ordering) (a : α) : List α → List α
  | [] => [a]
  | b :: l => if cmp a b = Ordering.gt then b :: insertCmp cmp a l else a :: b :: l

/-- Stable insertion sort by a comparator, modeling `Vec::sort_by` (a stable
sort). -/
def sortByCmp (cmp : α → α → Ordering) : List α → List α
  | [] => []
  | a :: l => insertCmp cmp a (sortByCmp cmp l)

/-- The bucket key of a transaction (sync.rs 137-138, 147-148): the first of
the month of its best-effort date, or `none` for the catch-all bucket. -/
def monthBucketKey (t : Transaction) : Option Date :=
  t.dateBestEffort.map (fun d => ⟨d.year, d.month, 1⟩)

/-- The unsorted contents of one bucket (sync.rs 136-154): booked
transactions in input order, then pending transactions in input order, each
tagged with its class. -/
def bucketContents (booked pending : List Transaction) (key : Option Date) :
    List TransactionWithStatus :=
  (booked.filter (fun t => monthBucketKey t = key)).map .booked ++
    (pending.filter (fun t => monthBucketKey t = key)).map .pending

/-- The distinct bucket keys, in first-occurrence order (the source iterates
a `HashMap` whose order is unspecified; no claim depends on file order). -/
def bucketKeys (booked pending : List Transaction) : List (Option Date) :=
  ((booked ++ pending).map monthBucketKey).dedup

/-- Zero-padded two-digit decimal rendering (chrono `%m`). -/
def pad2 (n : Nat) : String := (if n < 10 then "0" else "") ++ toString n

/-- Zero-padded four-digit decimal rendering (chrono `%Y` for CE years below
10000, the only years this system handles). -/
def pad4 (n : Nat) : String :=
  (if n < 10 then "000" else if n < 100 then "00" else if n < 1000 then "0" else "") ++
    toString n

/-- `month.format("%Y-%m.jsonl")` (sync.rs 158). -/
def monthFileName (month : Date) : String :=
  pad4 month.year.toNat ++ "-" ++ pad2 month.month ++ ".jsonl"

/-- File name for a bucket key (sync.rs 157-159): the month file, or
`undated.json` for the catch-all bucket. -/
def bucketFileName (key : Option Date) : String :=
  (key.map monthFileName).getD "undated.json"

/-- Exact decimal amount, modeling `rust_decimal::Decimal` as a scaled
integer mantissa. -/
structure Decimal where
  mantissa : Int
  scale : Nat
deriving DecidableEq, Repr

/-- Balance amount (accounts.rs 58-64), extra payload elided. -/
structure BalanceAmount where
  amount : Decimal
  currency : String
deriving DecidableEq, Repr

/-- Balance record (accounts.rs 41-57), extra payload elided. -/
structure Balance where
  balanceAmount : BalanceAmount
  balanceType : String
  creditLimitIncluded : Option Bool
  lastChange : Option DateTime
  referenceDate : Date
deriving DecidableEq, Repr

/-- Account record (accounts.rs 20-32), extra payload elided; the ingester
reads only `iban` and `status`. -/
structure Account where
  id : Uuid
  created : DateTime
  iban : String
  status : AccountStatus
  institutionId : String
  ownerName : String
deriving DecidableEq, Repr

/-- What the remote API returns for one account: its details, balances and
the booked/pending transaction lists for the queried window. The ingester is
verified relative to an arbitrary such environment. -/
structure AccountData where
  details : Account
  balances : List Balance
  booked : List Transaction
  pending : List Transaction

/-- Remote data indexed by account id. -/
def Env := Uuid → AccountData

/-- Provider configuration (config.rs 20-26); paths are segment lists. -/
structure ProviderConfig where
  institutionId : String
  output : List String
  historyDaysConfigured : Option Nat
  state : List String

/-- Payload of one `write_json_lines` call made by the ingester. -/
inductive FilePayload where
  | accountDetails (details : Account)
  | balanceLines (entries : List Balance)
  | transactionLines (entries : List TransactionWithStatus)

/-- One file write: destination path segments and payload. -/
structure FileWrite where
  path : List String
  payload : FilePayload

/-- The one error the ingestion model can raise: the bail of
sync.rs 124-126. -/
inductive SyncError where
  | accountNotReady (status : AccountStatus)
deriving Repr

/-- `Cmd::list_account` (sync.rs 107-182): fetch the account details and
write them unconditionally; abort with an error if the status is not Ready;
otherwise write the balances and every sorted month bucket. Returns the
writes performed in order and the outcome. -/
def listAccount (env : Env) (cfg : ProviderConfig) (accountId : Uuid) :
    List FileWrite × Option SyncError :=
  let data := env accountId
  let details := data.details
  let accountBase := cfg.output ++ [details.iban]
  let detailsWrite : FileWrite :=
    ⟨accountBase ++ ["account-details.json"], .accountDetails details⟩
  if details.status ≠ AccountStatus.Ready then
    ([detailsWrite], some (.accountNotReady details.status))
  else
    let balancesWrite : FileWrite :=
      ⟨accountBase ++ ["balances.jsonl"], .balanceLines data.balances⟩
    let bucketWrites := (bucketKeys data.booked data.pending).map fun key =>
      (⟨accountBase ++ [bucketFileName key],
        .transactionLines (sortByCmp transactionCmp
          (bucketContents data.booked data.pending key))⟩ : FileWrite)
    (detailsWrite :: balancesWrite :: bucketWrites, none)

/-- The account loop of `Cmd::run` (sync.rs 100-104): process accounts
sequentially, stopping at the first error, which becomes the run's result. -/
def runAccounts (env : Env) (cfg : ProviderConfig) :
    List Uuid → List FileWrite × Option SyncError
  | [] => ([], none)
  | a :: rest =>
    match listAccount env cfg a with
    | (ws, some e) => (ws, some e)
    | (ws, none) =>
      let r := runAccounts env cfg rest
      (ws ++ r.1, r.2)

/-- File-system paths as segment lists. -/
abbrev FsPath := List String

/-- Association-list lookup of a file's content. -/
def findFile : List (FsPath × String) → FsPath → Option String
  | [], _ => none
  | (p, c) :: rest, q => if p = q then some c else findFile rest q

/-- Install content at a path, replacing any previous entry. -/
def setFile (files : List (FsPath × String)) (p : FsPath) (c : String) :
    List (FsPath × String) :=
  (p, c) :: files.filter (fun e => e.1 ≠ p)

/-- Minimal file-system model: the set of existing directories and the
committed files. The temporary file lives outside `files` (its randomized
name is distinct from any destination) and is discarded unless renamed. -/
structure FileSystem where
  dirs : List FsPath
  files : List (FsPath × String)

/-- Failure oracle: which I/O step of `write_file_atomically` fails. -/
structure IoEnv where
  createDirFails : Bool
  createTempFails : Bool
  writeFails : Bool
  flushFails : Bool
  renameFails : Bool
deriving DecidableEq, Repr

/-- The observable steps `write_file_atomically` can perform, in the
vocabulary of the specification. `syncToStorage` stands for an explicit
durability sync (`File::sync_all`/`sync_data`). -/
inductive IoEvent where
  | createDirAll (dir : FsPath)
  | createTempFile (dir : FsPath) (mode : Nat)
  | writeContent (content : String)
  | flushUserBuffer
  | syncToStorage
  | rename (dest : FsPath)
deriving DecidableEq, Repr

/-- `Path::parent` of the destination: all but the last segment
(files.rs 35). -/
def parentDir (p : FsPath) : FsPath := p.dropLast

/-- `write_file_atomically` (files.rs 25-56) over the file-system model:
create the parent directory chain, create a temporary file in it with mode
`0o666`, run the writer into the buffered temp file, flush the buffer, and
persist (rename) the temp file over the destination. There is no
`sync_all`/`sync_data` call in the source, so no `syncToStorage` event is
ever emitted. Returns the performed events, success flag, and new state. -/
def writeFileAtomically (io : IoEnv) (fs : FileSystem) (path : FsPath)
    (content : String) : List IoEvent × Bool × FileSystem :=
  let parent := parentDir path
  if io.createDirFails then ([], false, fs) else
  let fs1 : FileSystem := ⟨parent.inits ++ fs.dirs, fs.files⟩
  let ev1 := [IoEvent.createDirAll parent]
  if io.createTempFails then (ev1, false, fs1) else
  let ev2 := ev1 ++ [IoEvent.createTempFile parent 0o666]
  if io.writeFails then (ev2, false, fs1) else
  let ev3 := ev2 ++ [IoEvent.writeContent content]
  if io.flushFails then (ev3, false, fs1) else
  let ev4 := ev3 ++ [IoEvent.flushUserBuffer]
  if io.renameFails then (ev4, false, fs1) else
  (ev4 ++ [IoEvent.rename path], true, ⟨fs1.dirs, setFile fs1.files path content⟩)

/-- Decimal digit character for a value below 10. -/
def digitChar (n : Nat) : Char := Char.ofNat (48 + n)

/-- Value of a decimal digit character. -/
def digitVal (c : Char) : Nat := c.toNat - 48

/-- Zero-padded two-digit decimal rendering at character level. -/
def twoDigits (n : Nat) : List Char := [digitChar (n / 10 % 10), digitChar (n % 10)]

/-- Zero-padded four-digit decimal rendering at character level. -/
def fourDigits (n : Nat) : List Char :=
  [digitChar (n / 1000 % 10), digitChar (n / 100 % 10), digitChar (n / 10 % 10),
   digitChar (n % 10)]

/-- chrono `%Y-%m-%d` rendering of a `NaiveDate` (serde wire form), for CE
years below 10000. -/
def dateToString (d : Date) : String :=
  String.mk (fourDigits d.year.toNat ++ '-' :: twoDigits d.month ++ '-' :: twoDigits d.day)

/-- RFC 3339 rendering of a UTC instant with whole seconds (serde wire form
of chrono `DateTime<Utc>`; the model elides sub-second precision). -/
def dateTimeToString (t : DateTime) : String :=
  String.mk (fourDigits t.date.year.toNat ++ '-' :: twoDigits t.date.month ++
    '-' :: twoDigits t.date.day ++ 'T' :: twoDigits t.hour ++
    ':' :: twoDigits t.minute ++ ':' :: twoDigits t.second ++ ['Z'])

/-- chrono `%Y-%m-%d` parsing at character level, including the calendar
validity check chrono performs. -/
def parseDateChars : List Char → Option Date
  | [y1, y2, y3, y4, '-', m1, m2, '-', d1, d2] =>
    if y1.isDigit ∧ y2.isDigit ∧ y3.isDigit ∧ y4.isDigit ∧
        m1.isDigit ∧ m2.isDigit ∧ d1.isDigit ∧ d2.isDigit then
      let date : Date :=
        ⟨Int.ofNat (digitVal y1 * 1000 + digitVal y2 * 100 + digitVal y3 * 10 + digitVal y4),
         digitVal m1 * 10 + digitVal m2,
         digitVal d1 * 10 + digitVal d2⟩
      if date.Valid then some date else none
    else none
  | _ => none

/-- chrono `%Y-%m-%d` parsing. -/
def parseDate (s : String) : Option Date := parseDateChars s.data

/-- Structurally valid instant: valid date and in-range time of day. -/
def DateTime.Valid (t : DateTime) : Prop :=
  t.date.Valid ∧ t.hour < 24 ∧ t.minute < 60 ∧ t.second < 60

instance (t : DateTime) : Decidable t.Valid := by
  unfold DateTime.Valid; infer_instance

/-- RFC 3339 parsing of a whole-second UTC instant at character level,
including the range checks chrono performs. -/
def parseDateTimeChars : List Char → Option DateTime
  | [y1, y2, y3, y4, '-', m1, m2, '-', d1, d2, 'T', h1, h2, ':', n1, n2, ':', s1, s2, 'Z'] =>
    if y1.isDigit ∧ y2.isDigit ∧ y3.isDigit ∧ y4.isDigit ∧
        m1.isDigit ∧ m2.isDigit ∧ d1.isDigit ∧ d2.isDigit ∧
        h1.isDigit ∧ h2.isDigit ∧ n1.isDigit ∧ n2.isDigit ∧ s1.isDigit ∧ s2.isDigit then
      let t : DateTime :=
        ⟨⟨Int.ofNat (digitVal y1 * 1000 + digitVal y2 * 100 + digitVal y3 * 10 + digitVal y4),
          digitVal m1 * 10 + digitVal m2,
          digitVal d1 * 10 + digitVal d2⟩,
         digitVal h1 * 10 + digitVal h2,
         digitVal n1 * 10 + digitVal n2,
         digitVal s1 * 10 + digitVal s2⟩
      if t.Valid then some t else none
    else none
  | _ => none

/-- RFC 3339 parsing of a whole-second UTC instant. -/
def parseDateTime (s : String) : Option DateTime := parseDateTimeChars s.data

/-- JSON encoding of a `NaiveDate` field value. -/
def encodeDate (d : Date) : Json := .str (dateToString d)

/-- JSON decoding of a `NaiveDate` field value. -/
def decodeDate : Json → Option Date
  | .str s => parseDate s
  | _ => none

/-- JSON encoding of a `DateTime<Utc>` field value. -/
def encodeDateTime (t : DateTime) : Json := .str (dateTimeToString t)

/-- JSON decoding of a `DateTime<Utc>` field value. -/
def decodeDateTime : Json → Option DateTime
  | .str s => parseDateTime s
  | _ => none

/-- JSON decoding of a string field value. -/
def decodeStr : Json → Option String
  | .str s => some s
  | _ => none

/-- Object entry for an optional field: absent when the field is `None`
(serde `skip_serializing_if`). -/
def optEntry (key : String) (f : α → Json) : Option α → List (String × Json)
  | none => []
  | some v => [(key, f v)]

/-- The wire names of the six typed Transaction fields. -/
def knownKeys : List String :=
  ["bookingDate", "bookingDateTime", "valueDate", "valueDateTime",
   "transactionId", "internalTransactionId"]

/-- serde serialization of `Transaction` (transactions.rs 33-69): the typed
fields in declaration order, `None` fields skipped, then the flattened
unknown fields. -/
def serializeTransaction (t : Transaction) : Json :=
  .obj (optEntry "bookingDate" encodeDate t.bookingDate ++
    optEntry "bookingDateTime" encodeDateTime t.bookingDateTime ++
    optEntry "valueDate" encodeDate t.valueDate ++
    optEntry "valueDateTime" encodeDateTime t.valueDateTime ++
    optEntry "transactionId" Json.str t.transactionId ++
    optEntry "internalTransactionId" Json.str t.internalTransactionId ++
    t.other)

/-- First entry with the given key in an object. -/
def lookupEntry : List (String × Json) → String → Option Json
  | [], _ => none
  | (k, v) :: rest, key => if k = key then some v else lookupEntry rest key

/-- Deserialize one optional typed field: absent key means `None`, a present
key must decode (serde `default` plus the field's deserializer). -/
def getField (entries : List (String × Json)) (key : String)
    (dec : Json → Option α) : Option (Option α) :=
  match lookupEntry entries key with
  | none => some none
  | some v => (dec v).map some

/-- serde deserialization of `Transaction`: typed fields are taken by key,
and every remaining entry flows into the flattened unknown-field bag. -/
def deserializeTransaction : Json → Option Transaction
  | .obj entries =>
      (getField entries "bookingDate" decodeDate).bind fun bd =>
      (getField entries "bookingDateTime" decodeDateTime).bind fun bdt =>
      (getField entries "valueDate" decodeDate).bind fun vd =>
      (getField entries "valueDateTime" decodeDateTime).bind fun vdt =>
      (getField entries "transactionId" decodeStr).bind fun tid =>
      (getField entries "internalTransactionId" decodeStr).bind fun itid =>
      some ⟨bd, bdt, vd, vdt, tid, itid,
            entries.filter (fun e => !(knownKeys.contains e.1))⟩
  | _ => none

/-- Predicate on the content of an optional field. -/
def OptHolds (P : α → Prop) : Option α → Prop
  | none => True
  | some v => P v

instance (P : α → Prop) [DecidablePred P] (o : Option α) :
    Decidable (OptHolds P o) := by
  cases o <;> (unfold OptHolds; infer_instance)

/-- Date representable on the serde wire form modeled here: valid and in the
four-digit CE year range. -/
def Date.WF (d : Date) : Prop := d.Valid ∧ 0 ≤ d.year ∧ d.year < 10000

instance (d : Date) : Decidable d.WF := by
  unfold Date.WF; infer_instance

/-- Instant representable on the serde wire form modeled here. -/
def DateTime.WF (t : DateTime) : Prop :=
  t.date.WF ∧ t.hour < 24 ∧ t.minute < 60 ∧ t.second < 60

instance (t : DateTime) : Decidable t.WF := by
  unfold DateTime.WF; infer_instance

/-- A `Transaction` value as the Rust type can actually hold it: in-range
date fields, and an unknown-field bag that is a genuine serde_json object
payload — keys disjoint from the typed field names, strictly sorted as
serde_json's map keeps them. -/
def Transaction.WF (t : Transaction) : Prop :=
  OptHolds Date.WF t.bookingDate ∧
  OptHolds DateTime.WF t.bookingDateTime ∧
  OptHolds Date.WF t.valueDate ∧
  OptHolds DateTime.WF t.valueDateTime ∧
  (∀ e ∈ t.other, ¬ knownKeys.contains e.1 = true) ∧
  t.other.Pairwise (fun a b => compareStr a.1 b.1 = Ordering.lt)

theorem daysInMonth_pos (y : Int) (m : Nat) : 1 ≤ daysInMonth y m := by
  unfold daysInMonth
  split
  · split <;> norm_num
  · split <;> norm_num

theorem daysInMonth_le (y : Int) (m : Nat) : daysInMonth y m ≤ 31 := by
  unfold daysInMonth
  split
  · split <;> norm_num
  · split <;> norm_num

theorem Date.valid_mk (y : Int) (m d : Nat) :
    (Date.mk y m d).Valid ↔ (1 ≤ m ∧ m ≤ 12 ∧ 1 ≤ d ∧ d ≤ daysInMonth y m) :=
  Iff.rfl

theorem Date.pred_valid {d : Date} (h : d.Valid) : d.pred.Valid := by
  obtain ⟨h1, h2, h3, h4⟩ := h
  unfold Date.pred
  split
  · rw [Date.valid_mk]
    exact ⟨h1, h2, by omega, by omega⟩
  · split
    · rw [Date.valid_mk]
      exact ⟨by omega, by omega, daysInMonth_pos _ _, le_refl _⟩
    · rw [Date.valid_mk]
      have h31 : daysInMonth (d.year - 1) 12 = 31 := by unfold daysInMonth; norm_num
      omega

theorem Date.succ_valid {d : Date} (h : d.Valid) : d.succ.Valid := by
  obtain ⟨h1, h2, h3, h4⟩ := h
  unfold Date.succ
  split
  · rw [Date.valid_mk]
    exact ⟨h1, h2, by omega, by omega⟩
  · split
    · rw [Date.valid_mk]
      exact ⟨by omega, by omega, by omega, daysInMonth_pos _ _⟩
    · rw [Date.valid_mk]
      have h31 : daysInMonth (d.year + 1) 1 = 31 := by unfold daysInMonth; norm_num
      omega

theorem Date.subDays_valid {d : Date} (h : d.Valid) : ∀ n, (d.subDays n).Valid := by
  intro n
  induction n generalizing d with
  | zero => exact h
  | succ k ih => exact ih (Date.pred_valid h)

theorem Date.addDays_valid {d : Date} (h : d.Valid) : ∀ n, (d.addDays n).Valid := by
  intro n
  induction n generalizing d with
  | zero => exact h
  | succ k ih => exact ih (Date.succ_valid h)

/-- Stepping back `k` days from day `k + 1` of a month lands on day 1 of the
same month. -/
theorem Date.subDays_to_first (y : Int) (m : Nat) :
    ∀ k, Date.subDays ⟨y, m, k + 1⟩ k = ⟨y, m, 1⟩ := by
  intro k
  induction k with
  | zero => rfl
  | succ n ih =>
      show Date.subDays (Date.pred ⟨y, m, n + 2⟩) n = _
      have hp : Date.pred ⟨y, m, n + 2⟩ = ⟨y, m, n + 1⟩ := by
        unfold Date.pred
        rw [if_pos (by omega : 1 < n + 2)]
        rfl
      rw [hp]
      exact ih

/-- The rounding step of `Cmd::run`: when the raw start is valid, adding one
clamped month and stepping back `day0` days yields the first day of the
following month. -/
theorem computeStartDate_rounds {endDate : Date} {cfg : Option Nat}
    (hv : (rawStartDate endDate cfg).Valid) :
    computeStartDate endDate cfg =
      (if (rawStartDate endDate cfg).day = 1 then rawStartDate endDate cfg
       else (rawStartDate endDate cfg).firstOfNextMonth) := by
  obtain ⟨h1, h2, h3, h4⟩ := hv
  set r := rawStartDate endDate cfg with hr
  unfold computeStartDate
  rw [← hr]
  by_cases hd : r.day = 1
  · simp [hd]
  · have hgt : 1 < r.day := by omega
    rw [if_pos hgt, if_neg hd]
    unfold Date.addOneMonth Date.firstOfNextMonth Date.day0
    by_cases hm : r.month < 12
    · rw [if_pos hm, if_pos hm]
      have hmin : 1 ≤ min r.day (daysInMonth r.year (r.month + 1)) := by
        have := daysInMonth_pos r.year (r.month + 1)
        omega
      obtain ⟨k, hk⟩ : ∃ k, min r.day (daysInMonth r.year (r.month + 1)) = k + 1 :=
        ⟨_, (Nat.succ_pred_eq_of_pos hmin).symm⟩
      simp only [hk, Nat.add_sub_cancel]
      exact Date.subDays_to_first _ _ _
    · rw [if_neg hm, if_neg hm]
      have hmin : 1 ≤ min r.day (daysInMonth (r.year + 1) 1) := by
        have := daysInMonth_pos (r.year + 1) 1
        omega
      obtain ⟨k, hk⟩ : ∃ k, min r.day (daysInMonth (r.year + 1) 1) = k + 1 :=
        ⟨_, (Nat.succ_pred_eq_of_pos hmin).symm⟩
      simp only [hk, Nat.add_sub_cancel]
      exact Date.subDays_to_first _ _ _

theorem transactionCmp_some_some {a b : TransactionWithStatus} {ta tb : DateTime}
    (ha : a.timestampBestEffort = some ta) (hb : b.timestampBestEffort = some tb) :
    transactionCmp a b =
      ((compareDateTime ta tb).then
        (compareOptionStr a.transactionId b.transactionId)).then
        (compareOptionStr a.internalTransactionId b.internalTransactionId) := by
  unfold transactionCmp
  rw [ha, hb]

theorem transactionCmp_missing_ts {a b : TransactionWithStatus}
    (h : a.timestampBestEffort = none ∨ b.timestampBestEffort = none) :
    transactionCmp a b =
      (compareOptionStr a.transactionId b.transactionId).then
        (compareOptionStr a.internalTransactionId b.internalTransactionId) := by
  unfold transactionCmp
  rcases h with h | h
  · rw [h]
    cases b.timestampBestEffort <;> rfl
  · rw [h]
    cases a.timestampBestEffort <;> rfl

/-- C3: within each bucket, transactions are sorted by best-effort timestamp
ascending — when both timestamps resolve they are compared directly, and
transactions lacking a resolvable timestamp are treated as equal under that
key — with ties broken by transaction id ascending (an absent id sorts before
any present id), then by internal transaction id under the same rule; for a
single bucket containing A (timestamp T1, id "b"), B (timestamp T1, id "a"),
and C (no timestamp, id "z"), the sorted output is [B, A, C]. -/
theorem claim_C3 :
    (∀ a b : TransactionWithStatus, ∀ ta tb : DateTime,
        a.timestampBestEffort = some ta → b.timestampBestEffort = some tb →
        transactionCmp a b =
          ((compareDateTime ta tb).then
            (compareOptionStr a.transactionId b.transactionId)).then
            (compareOptionStr a.internalTransactionId b.internalTransactionId)) ∧
    (∀ a b : TransactionWithStatus,
        a.timestampBestEffort = none → b.timestampBestEffort = none →
        transactionCmp a b =
          (compareOptionStr a.transactionId b.transactionId).then
            (compareOptionStr a.internalTransactionId b.internalTransactionId)) ∧
    (∀ s : String, compareOptionStr none (some s) = Ordering.lt) ∧
    sortByCmp transactionCmp
      [.booked ⟨none, some ⟨⟨2024, 5, 1⟩, 12, 0, 0⟩, none, none, some "b", none, []⟩,
       .booked ⟨none, some ⟨⟨2024, 5, 1⟩, 12, 0, 0⟩, none, none, some "a", none, []⟩,
       .booked ⟨none, none, none, none, some "z", none, []⟩] =
      [.booked ⟨none, some ⟨⟨2024, 5, 1⟩, 12, 0, 0⟩, none, none, some "a", none, []⟩,
       .booked ⟨none, some ⟨⟨2024, 5, 1⟩, 12, 0, 0⟩, none, none, some "b", none, []⟩,
       .booked ⟨none, none, none, none, some "z", none, []⟩] := by
  refine ⟨?_, ?_, fun s => rfl, rfl⟩
  · intro a b ta tb ha hb
    exact transactionCmp_some_some ha hb
  · intro a b ha _hb
    exact transactionCmp_missing_ts (Or.inl ha)

/-- C3 witness: the general comparator clauses instantiated at the example
transactions. -/
theorem claim_C3_witness :
    transactionCmp
        (.booked ⟨none, some ⟨⟨2024, 5, 1⟩, 12, 0, 0⟩, none, none, some "b", none, []⟩)
        (.booked ⟨none, some ⟨⟨2024, 5, 1⟩, 12, 0, 0⟩, none, none, some "a", none, []⟩) =
      ((compareDateTime ⟨⟨2024, 5, 1⟩, 12, 0, 0⟩ ⟨⟨2024, 5, 1⟩, 12, 0, 0⟩).then
        (compareOptionStr (some "b") (some "a"))).then (compareOptionStr none none) ∧
    transactionCmp
        (.booked ⟨none, none, none, none, some "z", none, []⟩)
        (.booked ⟨none, none, none, none, some "y", none, []⟩) =
      (compareOptionStr (some "z") (some "y")).then (compareOptionStr none none) :=
  ⟨claim_C3.1 _ _ _ _ rfl rfl, claim_C3.2.1 _ _ rfl rfl⟩

/-- C4: the best-effort date takes the booking date, else the date portion of
the booking date-time, else the value date; a defined best-effort date
buckets the transaction under the first of its month (booking date 2024-03-15
alone lands in the 2024-03 bucket file), and an undefined one goes to the
catch-all bucket; a booked transaction always lands in the bucket of its own
key. -/
theorem claim_C4 (t : Transaction) :
    (t.dateBestEffort =
      match t.bookingDate with
      | some d => some d
      | none =>
        match t.bookingDateTime with
        | some dt => some dt.date
        | none => t.valueDate) ∧
    (∀ d, t.dateBestEffort = some d →
      monthBucketKey t = some ⟨d.year, d.month, 1⟩) ∧
    (t.dateBestEffort = none → bucketFileName (monthBucketKey t) = "undated.json") ∧
    (∀ booked pending : List Transaction, t ∈ booked →
      TransactionWithStatus.booked t ∈ bucketContents booked pending (monthBucketKey t)) ∧
    bucketFileName (monthBucketKey ⟨some ⟨2024, 3, 15⟩, none, none, none, none, none, []⟩) =
      "2024-03.jsonl" := by
  refine ⟨?_, ?_, ?_, ?_, rfl⟩
  · unfold Transaction.dateBestEffort
    cases t.bookingDate <;> cases t.bookingDateTime <;> simp [Option.or]
  · intro d hd
    simp [monthBucketKey, hd]
  · intro hd
    simp [monthBucketKey, bucketFileName, hd]
  · intro booked pending ht
    unfold bucketContents
    refine List.mem_append.mpr (Or.inl ?_)
    exact List.mem_map.mpr ⟨t, List.mem_filter.mpr ⟨ht, by simp⟩, rfl⟩

/-- C4 witness: the dated and undated clauses at concrete transactions. -/
theorem claim_C4_witness :
    monthBucketKey ⟨some ⟨2024, 3, 15⟩, none, none, none, none, none, []⟩ =
      some ⟨2024, 3, 1⟩ ∧
    bucketFileName (monthBucketKey ⟨none, none, none, none, some "z", none, []⟩) =
      "undated.json" ∧
    TransactionWithStatus.booked ⟨some ⟨2024, 3, 15⟩, none, none, none, none, none, []⟩ ∈
      bucketContents [⟨some ⟨2024, 3, 15⟩, none, none, none, none, none, []⟩] []
        (monthBucketKey ⟨some ⟨2024, 3, 15⟩, none, none, none, none, none, []⟩) :=
  ⟨(claim_C4 _).2.1 ⟨2024, 3, 15⟩ rfl,
   (claim_C4 _).2.2.1 rfl,
   (claim_C4 _).2.2.2.1 _ [] (List.mem_singleton.mpr rfl)⟩

/-- C5: a callback whose supplied id differs from the expected requisition id
gets 404 Not Found without cancelling; with a matching id, a re-fetched
status of Linked triggers cancellation and 200 OK, while Rejected or Expired
(the only statuses outside Linked and the five in-progress values that the
closed status type can represent) get 200 OK without cancelling. -/
theorem claim_C5 (expected queryId : Uuid) (fetched : Requisition) :
    (queryId ≠ expected →
      handleRedirect expected queryId fetched = (Response.notFound, false)) ∧
    (queryId = expected → fetched.status = RequisitionStatus.Linked →
      handleRedirect expected queryId fetched = (Response.plainOk, true)) ∧
    (queryId = expected →
      (fetched.status = RequisitionStatus.Rejected ∨
        fetched.status = RequisitionStatus.Expired) →
      handleRedirect expected queryId fetched = (Response.plainOk, false)) ∧
    Response.notFound.statusCode = 404 ∧ Response.plainOk.statusCode = 200 := by
  refine ⟨?_, ?_, ?_, rfl, rfl⟩
  · intro h
    simp [handleRedirect, h]
  · intro h hs
    simp [handleRedirect, h, hs]
  · rintro h (hs | hs) <;> simp [handleRedirect, h, hs]

/-- C5 witness: the three clauses at concrete ids and requisitions. -/
theorem claim_C5_witness :
    handleRedirect 0 1 ⟨1, "l", RequisitionStatus.Linked, []⟩ = (Response.notFound, false) ∧
    handleRedirect 0 0 ⟨0, "l", RequisitionStatus.Linked, []⟩ = (Response.plainOk, true) ∧
    handleRedirect 0 0 ⟨0, "l", RequisitionStatus.Rejected, []⟩ = (Response.plainOk, false) :=
  ⟨(claim_C5 0 1 _).1 (by decide),
   (claim_C5 0 0 _).2.1 rfl rfl,
   (claim_C5 0 0 _).2.2.1 rfl (Or.inl rfl)⟩

/-- C6 counterexample: requisition-status deserialization fails on the
unknown status string "XX", so it is not the case that deserializing every
status enumeration succeeds on every input string. -/
theorem claim_C6_counterexample : RequisitionStatus.ofString "XX" = none := by decide

/-- C6 as amended: account-status deserialization always succeeds — known
strings map to their named variants and any other string maps to the
unrecognized variant carrying the raw string — while requisition-status
deserialization succeeds exactly on the eight known wire codes and fails
(never reaching an unrecognized variant) on any other string. -/
theorem claim_C6 (s : String) :
    (AccountStatus.ofString "READY" = AccountStatus.Ready ∧
     AccountStatus.ofString "EXPIRED" = AccountStatus.Expired ∧
     AccountStatus.ofString "ERROR" = AccountStatus.Error ∧
     AccountStatus.ofString "SUSPENDED" = AccountStatus.Suspended) ∧
    (s ∉ (["READY", "EXPIRED", "ERROR", "SUSPENDED"] : List String) →
      AccountStatus.ofString s = AccountStatus.Other s) ∧
    (RequisitionStatus.ofString "CR" = some RequisitionStatus.Created ∧
     RequisitionStatus.ofString "GC" = some RequisitionStatus.GivingConsent ∧
     RequisitionStatus.ofString "UA" = some RequisitionStatus.UndergoingAuthentication ∧
     RequisitionStatus.ofString "RJ" = some RequisitionStatus.Rejected ∧
     RequisitionStatus.ofString "SA" = some RequisitionStatus.SelectingAccounts ∧
     RequisitionStatus.ofString "GA" = some RequisitionStatus.GrantingAccess ∧
     RequisitionStatus.ofString "LN" = some RequisitionStatus.Linked ∧
     RequisitionStatus.ofString "EX" = some RequisitionStatus.Expired) ∧
    (s ∉ (["CR", "GC", "UA", "RJ", "SA", "GA", "LN", "EX"] : List String) →
      RequisitionStatus.ofString s = none) := by
  refine ⟨by decide, ?_, by decide, ?_⟩
  · intro hs
    simp only [List.mem_cons, List.not_mem_nil, or_false, not_or] at hs
    obtain ⟨h1, h2, h3, h4⟩ := hs
    simp [AccountStatus.ofString, h1, h2, h3, h4]
  · intro hs
    simp only [List.mem_cons, List.not_mem_nil, or_false, not_or] at hs
    obtain ⟨h1, h2, h3, h4, h5, h6, h7, h8⟩ := hs
    simp [RequisitionStatus.ofString, h1, h2, h3, h4, h5, h6, h7, h8]

/-- C6 witness: the fallback clauses instantiated at the unknown string
"ZZ". -/
theorem claim_C6_witness :
    AccountStatus.ofString "ZZ" = AccountStatus.Other "ZZ" ∧
    RequisitionStatus.ofString "ZZ" = none :=
  ⟨(claim_C6 "ZZ").2.1 (by decide), (claim_C6 "ZZ").2.2.2 (by decide)⟩

/-- C9: in the bucket comparator, any pair in which at least one transaction
lacks a resolvable timestamp — including one-sided pairs — compares equal
under the timestamp key, so the order is decided solely by the id
tie-breaks; consequently a timestamp-less transaction whose id tie-break
puts it first sorts before a transaction that has a timestamp. -/
theorem claim_C9 (a b : TransactionWithStatus)
    (h : a.timestampBestEffort = none ∨ b.timestampBestEffort = none) :
    transactionCmp a b =
      (compareOptionStr a.transactionId b.transactionId).then
        (compareOptionStr a.internalTransactionId b.internalTransactionId) ∧
    (compareOptionStr b.transactionId a.transactionId = Ordering.gt →
      sortByCmp transactionCmp [b, a] = [a, b]) := by
  refine ⟨transactionCmp_missing_ts h, ?_⟩
  intro hgt
  have hcmp : transactionCmp b a = Ordering.gt := by
    rw [transactionCmp_missing_ts h.symm, hgt]
    rfl
  simp [sortByCmp, insertCmp, hcmp]

/-- C9 witness: a timestamp-less transaction (id "a") against a timestamped
one (id "b"): the pair compares by ids alone and the undated transaction
sorts first. -/
theorem claim_C9_witness :
    transactionCmp (.booked ⟨none, none, none, none, some "a", none, []⟩)
        (.booked ⟨none, some ⟨⟨2024, 5, 1⟩, 12, 0, 0⟩, none, none, some "b", none, []⟩) =
      (compareOptionStr (some "a") (some "b")).then (compareOptionStr none none) ∧
    sortByCmp transactionCmp
        [.booked ⟨none, some ⟨⟨2024, 5, 1⟩, 12, 0, 0⟩, none, none, some "b", none, []⟩,
         .booked ⟨none, none, none, none, some "a", none, []⟩] =
      [.booked ⟨none, none, none, none, some "a", none, []⟩,
       .booked ⟨none, some ⟨⟨2024, 5, 1⟩, 12, 0, 0⟩, none, none, some "b", none, []⟩] :=
  ⟨(claim_C9 (.booked ⟨none, none, none, none, some "a", none, []⟩)
      (.booked ⟨none, some ⟨⟨2024, 5, 1⟩, 12, 0, 0⟩, none, none, some "b", none, []⟩)
      (Or.inl rfl)).1,
   (claim_C9 (.booked ⟨none, none, none, none, some "a", none, []⟩)
      (.booked ⟨none, some ⟨⟨2024, 5, 1⟩, 12, 0, 0⟩, none, none, some "b", none, []⟩)
      (Or.inl rfl)).2 rfl⟩

/-- C10: a transaction whose only date-bearing field is the value date-time
has an undefined best-effort date and goes to the catch-all undated bucket,
even though its best-effort timestamp is defined and resolves to that value
date-time. -/
theorem claim_C10 (t : Transaction) (dt : DateTime)
    (h1 : t.bookingDate = none) (h2 : t.bookingDateTime = none)
    (h3 : t.valueDate = none) (h4 : t.valueDateTime = some dt) :
    t.dateBestEffort = none ∧
    monthBucketKey t = none ∧
    bucketFileName (monthBucketKey t) = "undated.json" ∧
    t.timestampBestEffort = some dt := by
  refine ⟨?_, ?_, ?_, ?_⟩ <;>
    simp [Transaction.dateBestEffort, Transaction.timestampBestEffort, monthBucketKey,
      bucketFileName, h1, h2, h3, h4]

/-- C10 witness: a concrete transaction carrying only a value date-time. -/
theorem claim_C10_witness :
    Transaction.dateBestEffort
        ⟨none, none, none, some ⟨⟨2024, 5, 1⟩, 12, 0, 0⟩, none, none, []⟩ = none ∧
    monthBucketKey ⟨none, none, none, some ⟨⟨2024, 5, 1⟩, 12, 0, 0⟩, none, none, []⟩ = none ∧
    bucketFileName (monthBucketKey
        ⟨none, none, none, some ⟨⟨2024, 5, 1⟩, 12, 0, 0⟩, none, none, []⟩) = "undated.json" ∧
    Transaction.timestampBestEffort
        ⟨none, none, none, some ⟨⟨2024, 5, 1⟩, 12, 0, 0⟩, none, none, []⟩ =
      some ⟨⟨2024, 5, 1⟩, 12, 0, 0⟩ :=
  claim_C10 _ _ rfl rfl rfl rfl

set_option maxRecDepth 4000 in
/-- C2: with the current local date supplied as the (valid) end date, the raw
window start is end_date − history_days + 1 day, history_days defaulting to
90 when unset; a raw start not on the first day of its month is rounded
forward to the first day of the following month, and one already on day 1 is
used as-is; for history_days 90 and end date 2024-06-15 the raw start is
2024-03-18 and the rounded start 2024-04-01. -/
theorem claim_C2 (endDate : Date) (cfg : Option Nat) (hv : endDate.Valid) :
    historyDays none = 90 ∧
    rawStartDate endDate cfg = (endDate.subDays (historyDays cfg)).addDays 1 ∧
    computeStartDate endDate cfg =
      (if (rawStartDate endDate cfg).day = 1 then rawStartDate endDate cfg
       else (rawStartDate endDate cfg).firstOfNextMonth) ∧
    rawStartDate ⟨2024, 6, 15⟩ (some 90) = ⟨2024, 3, 18⟩ ∧
    computeStartDate ⟨2024, 6, 15⟩ (some 90) = ⟨2024, 4, 1⟩ :=
  ⟨rfl, rfl, computeStartDate_rounds (Date.addDays_valid (Date.subDays_valid hv _) 1),
   by decide, by decide⟩

set_option maxRecDepth 4000 in
/-- C2 witness: the computation at the example end date, whose validity
discharges the hypothesis. -/
theorem claim_C2_witness :
    Date.Valid ⟨2024, 6, 15⟩ ∧
    computeStartDate ⟨2024, 6, 15⟩ (some 90) = ⟨2024, 4, 1⟩ :=
  ⟨by decide, (claim_C2 ⟨2024, 6, 15⟩ (some 90) (by decide)).2.2.2.2⟩

theorem listAccount_ready {env : Env} {cfg : ProviderConfig} {a : Uuid}
    (h : ((env a).details).status = AccountStatus.Ready) :
    (listAccount env cfg a).2 = none := by
  unfold listAccount
  simp [h]

theorem runAccounts_append_ready (env : Env) (cfg : ProviderConfig)
    (pre rest : List Uuid)
    (hpre : ∀ b ∈ pre, ((env b).details).status = AccountStatus.Ready) :
    runAccounts env cfg (pre ++ rest) =
      ((runAccounts env cfg pre).1 ++ (runAccounts env cfg rest).1,
       (runAccounts env cfg rest).2) := by
  induction pre with
  | nil => simp [runAccounts]
  | cons a l ih =>
      have ha : ((env a).details).status = AccountStatus.Ready := hpre a (by simp)
      have hl : ∀ b ∈ l, ((env b).details).status = AccountStatus.Ready :=
        fun b hb => hpre b (List.mem_cons_of_mem a hb)
      have h2 := @listAccount_ready env cfg a ha
      rcases hE : listAccount env cfg a with ⟨ws, res⟩
      have hres : res = none := by rw [hE] at h2; exact h2
      subst hres
      simp only [List.cons_append, runAccounts, hE, List.append_eq, ih hl,
        List.append_assoc]

/-- C7: an account whose fetched details are not Ready gets its
account-details.json written (before the status check) and then aborts with
a reported error — no balances or transaction files for it — and the failure
stops the remaining accounts, so the run's overall result is that error. -/
theorem claim_C7 (env : Env) (cfg : ProviderConfig) (pre post : List Uuid) (a : Uuid)
    (hpre : ∀ b ∈ pre, ((env b).details).status = AccountStatus.Ready)
    (ha : ((env a).details).status ≠ AccountStatus.Ready) :
    listAccount env cfg a =
      ([⟨cfg.output ++ [((env a).details).iban] ++ ["account-details.json"],
         FilePayload.accountDetails ((env a).details)⟩],
       some (SyncError.accountNotReady ((env a).details).status)) ∧
    runAccounts env cfg (pre ++ a :: post) =
      ((runAccounts env cfg pre).1 ++
        [⟨cfg.output ++ [((env a).details).iban] ++ ["account-details.json"],
          FilePayload.accountDetails ((env a).details)⟩],
       some (SyncError.accountNotReady ((env a).details).status)) := by
  have h1 : listAccount env cfg a =
      ([⟨cfg.output ++ [((env a).details).iban] ++ ["account-details.json"],
         FilePayload.accountDetails ((env a).details)⟩],
       some (SyncError.accountNotReady ((env a).details).status)) := by
    unfold listAccount
    simp [ha]
  refine ⟨h1, ?_⟩
  rw [runAccounts_append_ready env cfg pre (a :: post) hpre]
  simp only [runAccounts, h1]

/-- C7 witness: a two-account run in which the first account has status
Error: only its details file is written, the second account is never
processed, and the run reports the error. -/
theorem claim_C7_witness :
    runAccounts
        (fun _ => ⟨⟨0, ⟨⟨2024, 1, 1⟩, 0, 0, 0⟩, "IBAN1", AccountStatus.Error, "inst", "own"⟩,
          [], [], []⟩)
        ⟨"inst", ["out"], none, ["state"]⟩ [7, 8] =
      ([⟨["out", "IBAN1", "account-details.json"],
         FilePayload.accountDetails
           ⟨0, ⟨⟨2024, 1, 1⟩, 0, 0, 0⟩, "IBAN1", AccountStatus.Error, "inst", "own"⟩⟩],
       some (SyncError.accountNotReady AccountStatus.Error)) :=
  (claim_C7 _ _ [] [8] 7 (fun b hb => absurd hb (List.not_mem_nil b)) (by decide)).2

/-- C1 counterexample: on a fully successful concrete run,
write_file_atomically performs no durable-storage sync step, contradicting
the claim that the data is durably synced to storage before the rename. -/
theorem claim_C1_counterexample :
    IoEvent.syncToStorage ∉
      (writeFileAtomically ⟨false, false, false, false, false⟩ ⟨[], []⟩
        ["out", "x.json"] "data").1 := by
  decide

/-- C1 as amended: write_file_atomically ensures the destination's parent
directory exists (creating it recursively), creates a temporary file in that
directory with permissions 0o666, writes the full serialized content,
flushes the userspace buffer to the file — without an explicit
durable-storage sync — then atomically renames the temporary file over the
destination; if any step before the rename fails, it returns an error and
the destination's prior content or absence is unchanged. -/
theorem claim_C1 (io : IoEnv) (fs : FileSystem) (path : FsPath) (content : String) :
    ((writeFileAtomically io fs path content).2.1 = true →
      (writeFileAtomically io fs path content).1 =
        [IoEvent.createDirAll (parentDir path),
         IoEvent.createTempFile (parentDir path) 0o666,
         IoEvent.writeContent content, IoEvent.flushUserBuffer, IoEvent.rename path] ∧
      parentDir path ∈ (writeFileAtomically io fs path content).2.2.dirs ∧
      findFile (writeFileAtomically io fs path content).2.2.files path = some content) ∧
    ((writeFileAtomically io fs path content).2.1 = false →
      findFile (writeFileAtomically io fs path content).2.2.files path =
        findFile fs.files path) := by
  obtain ⟨cd, ct, w, fl, rn⟩ := io
  cases cd <;> cases ct <;> cases w <;> cases fl <;> cases rn <;>
    simp [writeFileAtomically, setFile, findFile, parentDir, List.mem_append,
      List.mem_inits, List.prefix_refl]

/-- C1 witness: a successful concrete run installs the content, and a run
whose write step fails leaves the prior destination content in place. -/
theorem claim_C1_witness :
    findFile (writeFileAtomically ⟨false, false, false, false, false⟩ ⟨[], []⟩
        ["out", "x.json"] "data").2.2.files ["out", "x.json"] = some "data" ∧
    findFile (writeFileAtomically ⟨false, false, true, false, false⟩
        ⟨[], [(["out", "x.json"], "old")]⟩ ["out", "x.json"] "data").2.2.files
        ["out", "x.json"] =
      findFile [(["out", "x.json"], "old")] ["out", "x.json"] :=
  ⟨((claim_C1 ⟨false, false, false, false, false⟩ ⟨[], []⟩ ["out", "x.json"] "data").1
      rfl).2.2,
   (claim_C1 ⟨false, false, true, false, false⟩ ⟨[], [(["out", "x.json"], "old")]⟩
      ["out", "x.json"] "data").2 rfl⟩

theorem isDigit_digitChar {k : Nat} (h : k < 10) : (digitChar k).isDigit = true := by
  interval_cases k <;> decide

theorem digitVal_digitChar {k : Nat} (h : k < 10) : digitVal (digitChar k) = k := by
  interval_cases k <;> decide

theorem two_digit_recompose {n : Nat} (h : n < 100) :
    digitVal (digitChar (n / 10 % 10)) * 10 + digitVal (digitChar (n % 10)) = n := by
  rw [digitVal_digitChar (Nat.mod_lt _ (by norm_num)),
      digitVal_digitChar (Nat.mod_lt _ (by norm_num))]
  omega

theorem four_digit_recompose {n : Nat} (h : n < 10000) :
    digitVal (digitChar (n / 1000 % 10)) * 1000 + digitVal (digitChar (n / 100 % 10)) * 100 +
      digitVal (digitChar (n / 10 % 10)) * 10 + digitVal (digitChar (n % 10)) = n := by
  rw [digitVal_digitChar (Nat.mod_lt _ (by norm_num)),
      digitVal_digitChar (Nat.mod_lt _ (by norm_num)),
      digitVal_digitChar (Nat.mod_lt _ (by norm_num)),
      digitVal_digitChar (Nat.mod_lt _ (by norm_num))]
  omega

theorem parseDateChars_encode {y m dd : Nat} (hy : y < 10000) (hm : m < 100) (hd : dd < 100)
    (hvalid : (Date.mk (Int.ofNat y) m dd).Valid) :
    parseDateChars (fourDigits y ++ '-' :: twoDigits m ++ '-' :: twoDigits dd) =
      some ⟨Int.ofNat y, m, dd⟩ := by
  have hdig : ∀ k : Nat, (digitChar (k % 10)).isDigit = true :=
    fun k => isDigit_digitChar (Nat.mod_lt _ (by norm_num))
  unfold fourDigits twoDigits
  simp only [List.cons_append, List.nil_append]
  simp only [parseDateChars]
  rw [if_pos ⟨hdig _, hdig _, hdig _, hdig _, hdig _, hdig _, hdig _, hdig _⟩]
  rw [four_digit_recompose hy, two_digit_recompose hm, two_digit_recompose hd]
  rw [if_pos hvalid]

theorem parseDateTimeChars_encode {y m dd hh nn ss : Nat} (hy : y < 10000) (hm : m < 100)
    (hd : dd < 100) (hh2 : hh < 100) (hn2 : nn < 100) (hs2 : ss < 100)
    (hvalid : (DateTime.mk ⟨Int.ofNat y, m, dd⟩ hh nn ss).Valid) :
    parseDateTimeChars (fourDigits y ++ '-' :: twoDigits m ++ '-' :: twoDigits dd ++
        'T' :: twoDigits hh ++ ':' :: twoDigits nn ++ ':' :: twoDigits ss ++ ['Z']) =
      some ⟨⟨Int.ofNat y, m, dd⟩, hh, nn, ss⟩ := by
  have hdig : ∀ k : Nat, (digitChar (k % 10)).isDigit = true :=
    fun k => isDigit_digitChar (Nat.mod_lt _ (by norm_num))
  unfold fourDigits twoDigits
  simp only [List.cons_append, List.nil_append]
  simp only [parseDateTimeChars]
  rw [if_pos ⟨hdig _, hdig _, hdig _, hdig _, hdig _, hdig _, hdig _, hdig _, hdig _,
    hdig _, hdig _, hdig _, hdig _, hdig _⟩]
  rw [four_digit_recompose hy, two_digit_recompose hm, two_digit_recompose hd,
      two_digit_recompose hh2, two_digit_recompose hn2, two_digit_recompose hs2]
  rw [if_pos hvalid]

theorem parseDate_dateToString {d : Date} (h : d.WF) : parseDate (dateToString d) = some d := by
  obtain ⟨hvalid, hy0, hy4⟩ := h
  have hy : d.year.toNat < 10000 := by omega
  have hm : d.month < 100 := by
    obtain ⟨_, h12, _, _⟩ := hvalid
    omega
  have hdd : d.day < 100 := by
    obtain ⟨_, _, _, hdm⟩ := hvalid
    have := daysInMonth_le d.year d.month
    omega
  have hId : Int.ofNat d.year.toNat = d.year := Int.toNat_of_nonneg hy0
  have hvalid2 : (Date.mk (Int.ofNat d.year.toNat) d.month d.day).Valid := by
    rw [hId]
    exact hvalid
  calc parseDate (dateToString d)
      = parseDateChars (fourDigits d.year.toNat ++ '-' :: twoDigits d.month ++
          '-' :: twoDigits d.day) := rfl
    _ = some ⟨Int.ofNat d.year.toNat, d.month, d.day⟩ :=
        parseDateChars_encode hy hm hdd hvalid2
    _ = some d := by rw [hId]

theorem parseDateTime_dateTimeToString {t : DateTime} (h : t.WF) :
    parseDateTime (dateTimeToString t) = some t := by
  obtain ⟨⟨hvalid, hy0, hy4⟩, hh, hn, hs⟩ := h
  have hy : t.date.year.toNat < 10000 := by omega
  have hm : t.date.month < 100 := by
    obtain ⟨_, h12, _, _⟩ := hvalid
    omega
  have hdd : t.date.day < 100 := by
    obtain ⟨_, _, _, hdm⟩ := hvalid
    have := daysInMonth_le t.date.year t.date.month
    omega
  have hh2 : t.hour < 100 := by omega
  have hn2 : t.minute < 100 := by omega
  have hs2 : t.second < 100 := by omega
  have hId : Int.ofNat t.date.year.toNat = t.date.year := Int.toNat_of_nonneg hy0
  have hvalid2 : (DateTime.mk ⟨Int.ofNat t.date.year.toNat, t.date.month, t.date.day⟩
      t.hour t.minute t.second).Valid := by
    rw [hId]
    exact ⟨hvalid, hh, hn, hs⟩
  calc parseDateTime (dateTimeToString t)
      = parseDateTimeChars (fourDigits t.date.year.toNat ++ '-' :: twoDigits t.date.month ++
          '-' :: twoDigits t.date.day ++ 'T' :: twoDigits t.hour ++
          ':' :: twoDigits t.minute ++ ':' :: twoDigits t.second ++ ['Z']) := rfl
    _ = some ⟨⟨Int.ofNat t.date.year.toNat, t.date.month, t.date.day⟩,
          t.hour, t.minute, t.second⟩ :=
        parseDateTimeChars_encode hy hm hdd hh2 hn2 hs2 hvalid2
    _ = some t := by rw [hId]

theorem decodeDate_encodeDate {d : Date} (h : d.WF) : decodeDate (encodeDate d) = some d :=
  parseDate_dateToString h

theorem decodeDateTime_encodeDateTime {t : DateTime} (h : t.WF) :
    decodeDateTime (encodeDateTime t) = some t :=
  parseDateTime_dateTimeToString h

theorem lookupEntry_no_key {l : List (String × Json)} {key : String}
    (h : ∀ e ∈ l, e.1 ≠ key) : lookupEntry l key = none := by
  induction l with
  | nil => rfl
  | cons e rest ih =>
      obtain ⟨k, v⟩ := e
      have hk : k ≠ key := h (k, v) (by simp)
      simp only [lookupEntry, if_neg hk]
      exact ih fun e he => h e (List.mem_cons_of_mem _ he)

theorem lookupEntry_optEntry_ne {k key : String} (hne : k ≠ key) (f : α → Json)
    (o : Option α) (rest : List (String × Json)) :
    lookupEntry (optEntry k f o ++ rest) key = lookupEntry rest key := by
  cases o with
  | none => rfl
  | some v => simp [optEntry, lookupEntry, hne]

theorem getField_skip {k key : String} (hne : k ≠ key) (f : α → Json)
    (dec : Json → Option β) (o : Option α) (rest : List (String × Json)) :
    getField (optEntry k f o ++ rest) key dec = getField rest key dec := by
  unfold getField
  rw [lookupEntry_optEntry_ne hne]

theorem getField_head {k : String} {enc : α → Json} {dec : Json → Option α}
    {o : Option α} {rest : List (String × Json)}
    (hrest : lookupEntry rest k = none)
    (hdec : ∀ v, o = some v → dec (enc v) = some v) :
    getField (optEntry k enc o ++ rest) k dec = some o := by
  cases o with
  | none => simp [optEntry, getField, hrest]
  | some v => simp [optEntry, getField, lookupEntry, hdec v rfl]

theorem option_some_bind (a : α) (f : α → Option β) : (some a).bind f = f a := rfl

theorem filter_optEntry_known {k : String} (hk : knownKeys.contains k = true)
    (f : α → Json) (o : Option α) (l : List (String × Json)) :
    (optEntry k f o ++ l).filter (fun e => !(knownKeys.contains e.1)) =
      l.filter (fun e => !(knownKeys.contains e.1)) := by
  cases o with
  | none => rfl
  | some v =>
      have hmem : k ∈ knownKeys := by simpa using hk
      simp only [optEntry, List.cons_append, List.nil_append, List.filter_cons]
      simp [hmem]

theorem filter_unknown {l : List (String × Json)}
    (h : ∀ e ∈ l, ¬ knownKeys.contains e.1 = true) :
    l.filter (fun e => !(knownKeys.contains e.1)) = l := by
  apply List.filter_eq_self.mpr
  intro e he
  simpa using h e he

/-- C8: serializing a Transaction carrying extra fields beyond the six typed
ones and deserializing the result yields the same Transaction back, with
every unknown extra field preserved exactly (the hypotheses say the value is
one the Rust type can actually hold: wire-representable dates, and an
unknown-field bag that is a serde_json object payload with keys disjoint
from the typed field names, in the map's canonical sorted order). -/
theorem claim_C8 (t : Transaction) (hwf : t.WF) :
    deserializeTransaction (serializeTransaction t) = some t ∧
    (deserializeTransaction (serializeTransaction t)).map Transaction.other =
      some t.other := by
  obtain ⟨hbd, hbdt, hvd, hvdt, hother, _hsorted⟩ := hwf
  have hoNone : ∀ key : String, knownKeys.contains key = true →
      lookupEntry t.other key = none := by
    intro key hk
    apply lookupEntry_no_key
    intro e he heq
    exact hother e he (by rw [heq]; exact hk)
  have hdecBD : ∀ v, t.bookingDate = some v → decodeDate (encodeDate v) = some v := by
    intro v hv
    apply decodeDate_encodeDate
    rw [hv] at hbd
    exact hbd
  have hdecBDT : ∀ v, t.bookingDateTime = some v →
      decodeDateTime (encodeDateTime v) = some v := by
    intro v hv
    apply decodeDateTime_encodeDateTime
    rw [hv] at hbdt
    exact hbdt
  have hdecVD : ∀ v, t.valueDate = some v → decodeDate (encodeDate v) = some v := by
    intro v hv
    apply decodeDate_encodeDate
    rw [hv] at hvd
    exact hvd
  have hdecVDT : ∀ v, t.valueDateTime = some v →
      decodeDateTime (encodeDateTime v) = some v := by
    intro v hv
    apply decodeDateTime_encodeDateTime
    rw [hv] at hvdt
    exact hvdt
  have hdecTID : ∀ v : String, t.transactionId = some v →
      decodeStr (Json.str v) = some v := fun v _ => rfl
  have hdecITID : ∀ v : String, t.internalTransactionId = some v →
      decodeStr (Json.str v) = some v := fun v _ => rfl
  have L6 : lookupEntry t.other "internalTransactionId" = none := hoNone _ (by decide)
  have L5 : lookupEntry (optEntry "internalTransactionId" Json.str t.internalTransactionId ++
      t.other) "transactionId" = none := by
    rw [lookupEntry_optEntry_ne
      (by decide : ("internalTransactionId" : String) ≠ "transactionId")]
    exact hoNone _ (by decide)
  have L4 : lookupEntry (optEntry "transactionId" Json.str t.transactionId ++
      (optEntry "internalTransactionId" Json.str t.internalTransactionId ++ t.other))
      "valueDateTime" = none := by
    rw [lookupEntry_optEntry_ne (by decide : ("transactionId" : String) ≠ "valueDateTime"),
        lookupEntry_optEntry_ne
          (by decide : ("internalTransactionId" : String) ≠ "valueDateTime")]
    exact hoNone _ (by decide)
  have L3 : lookupEntry (optEntry "valueDateTime" encodeDateTime t.valueDateTime ++
      (optEntry "transactionId" Json.str t.transactionId ++
        (optEntry "internalTransactionId" Json.str t.internalTransactionId ++ t.other)))
      "valueDate" = none := by
    rw [lookupEntry_optEntry_ne (by decide : ("valueDateTime" : String) ≠ "valueDate"),
        lookupEntry_optEntry_ne (by decide : ("transactionId" : String) ≠ "valueDate"),
        lookupEntry_optEntry_ne
          (by decide : ("internalTransactionId" : String) ≠ "valueDate")]
    exact hoNone _ (by decide)
  have L2 : lookupEntry (optEntry "valueDate" encodeDate t.valueDate ++
      (optEntry "valueDateTime" encodeDateTime t.valueDateTime ++
        (optEntry "transactionId" Json.str t.transactionId ++
          (optEntry "internalTransactionId" Json.str t.internalTransactionId ++ t.other))))
      "bookingDateTime" = none := by
    rw [lookupEntry_optEntry_ne (by decide : ("valueDate" : String) ≠ "bookingDateTime"),
        lookupEntry_optEntry_ne (by decide : ("valueDateTime" : String) ≠ "bookingDateTime"),
        lookupEntry_optEntry_ne (by decide : ("transactionId" : String) ≠ "bookingDateTime"),
        lookupEntry_optEntry_ne
          (by decide : ("internalTransactionId" : String) ≠ "bookingDateTime")]
    exact hoNone _ (by decide)
  have L1 : lookupEntry (optEntry "bookingDateTime" encodeDateTime t.bookingDateTime ++
      (optEntry "valueDate" encodeDate t.valueDate ++
        (optEntry "valueDateTime" encodeDateTime t.valueDateTime ++
          (optEntry "transactionId" Json.str t.transactionId ++
            (optEntry "internalTransactionId" Json.str t.internalTransactionId ++ t.other)))))
      "bookingDate" = none := by
    rw [lookupEntry_optEntry_ne (by decide : ("bookingDateTime" : String) ≠ "bookingDate"),
        lookupEntry_optEntry_ne (by decide : ("valueDate" : String) ≠ "bookingDate"),
        lookupEntry_optEntry_ne (by decide : ("valueDateTime" : String) ≠ "bookingDate"),
        lookupEntry_optEntry_ne (by decide : ("transactionId" : String) ≠ "bookingDate"),
        lookupEntry_optEntry_ne
          (by decide : ("internalTransactionId" : String) ≠ "bookingDate")]
    exact hoNone _ (by decide)
  have main : deserializeTransaction (serializeTransaction t) = some t := by
    unfold serializeTransaction deserializeTransaction
    simp only [List.append_assoc]
    simp only [getField_skip (by decide : ("bookingDate" : String) ≠ "bookingDateTime"),
      getField_skip (by decide : ("bookingDate" : String) ≠ "valueDate"),
      getField_skip (by decide : ("bookingDateTime" : String) ≠ "valueDate"),
      getField_skip (by decide : ("bookingDate" : String) ≠ "valueDateTime"),
      getField_skip (by decide : ("bookingDateTime" : String) ≠ "valueDateTime"),
      getField_skip (by decide : ("valueDate" : String) ≠ "valueDateTime"),
      getField_skip (by decide : ("bookingDate" : String) ≠ "transactionId"),
      getField_skip (by decide : ("bookingDateTime" : String) ≠ "transactionId"),
      getField_skip (by decide : ("valueDate" : String) ≠ "transactionId"),
      getField_skip (by decide : ("valueDateTime" : String) ≠ "transactionId"),
      getField_skip (by decide : ("bookingDate" : String) ≠ "internalTransactionId"),
      getField_skip (by decide : ("bookingDateTime" : String) ≠ "internalTransactionId"),
      getField_skip (by decide : ("valueDate" : String) ≠ "internalTransactionId"),
      getField_skip (by decide : ("valueDateTime" : String) ≠ "internalTransactionId"),
      getField_skip (by decide : ("transactionId" : String) ≠ "internalTransactionId")]
    simp only [getField_head L1 hdecBD, getField_head L2 hdecBDT, getField_head L3 hdecVD,
      getField_head L4 hdecVDT, getField_head L5 hdecTID, getField_head L6 hdecITID,
      option_some_bind]
    simp only [filter_optEntry_known (by decide : knownKeys.contains "bookingDate" = true),
      filter_optEntry_known (by decide : knownKeys.contains "bookingDateTime" = true),
      filter_optEntry_known (by decide : knownKeys.contains "valueDate" = true),
      filter_optEntry_known (by decide : knownKeys.contains "valueDateTime" = true),
      filter_optEntry_known (by decide : knownKeys.contains "transactionId" = true),
      filter_optEntry_known (by decide : knownKeys.contains "internalTransactionId" = true),
      filter_unknown hother]
  exact ⟨main, by rw [main]; rfl⟩

/-- C8 witness: a concrete transaction with two unknown extra fields
round-trips unchanged. -/
theorem claim_C8_witness :
    deserializeTransaction (serializeTransaction
        ⟨some ⟨2024, 3, 15⟩, some ⟨⟨2024, 3, 16⟩, 10, 30, 0⟩, none, none, some "id1", none,
         [("amount", Json.str "12.5"), ("extra", Json.bool true)]⟩) =
      some ⟨some ⟨2024, 3, 15⟩, some ⟨⟨2024, 3, 16⟩, 10, 30, 0⟩, none, none, some "id1", none,
         [("amount", Json.str "12.5"), ("extra", Json.bool true)]⟩ :=
  (claim_C8
    ⟨some ⟨2024, 3, 15⟩, some ⟨⟨2024, 3, 16⟩, 10, 30, 0⟩, none, none, some "id1", none,
     [("amount", Json.str "12.5"), ("extra", Json.bool true)]⟩
    ⟨by decide, by decide, by decide, by decide, by decide, by decide⟩).1

end ObScraper
